import Mathlib

/-!
Verification of the `rsw_interface` repository against its specification.

The development shallowly embeds the data model of `interface.py`: class
objects with a `__dict__` of attributes and a list of base classes, function
objects carrying `__code__.co_argcount` and `__code__.co_varnames`, attribute
resolution along the C3 method-resolution order, and the conformance engine
(`__implements`, `assert_implements`, `implements`, `extends`,
`interface_body_name`, `ancestors`).

Python's `set` iteration order over class objects is id-hash dependent and
unspecified; every place the source applies `list(set(...))` (the functions
`unique` and `ancestors`) is therefore parameterised by an order oracle
`σ : List Nat → List Nat`, constrained only by `SetModel` (the output is
duplicate-free and has exactly the members of the input).  Concrete
computations instantiate `σ` with the first-occurrence dedup `pyDedup`.
-/

namespace RswInterface

/-- A Python function object (`FunctionType`): an identity (two function
objects are `==`/`is`-equal exactly when they are the same object), the
arity `__code__.co_argcount`, and `__code__.co_varnames`, whose first entry
is the name of the first formal parameter. -/
structure Func where
  fid : Nat
  argcount : Nat
  varnames : List String
deriving Repr, DecidableEq

/-- A value stored in a class `__dict__`: a plain function, a boolean (such as
`interface_flag`), or any other attribute that is not a `FunctionType` (for
example the builtin slot wrapper `object.__init__`); the latter fail the
`type(item[1]) is FunctionType` stub filter and have no `__code__`. -/
inductive Attr where
  | func (f : Func)
  | boolVal (b : Bool)
  | other (n : Nat)
deriving Repr, DecidableEq

/-- A class object: `__name__`, `__bases__` (indices of earlier-declared
classes), and the class's own `__dict__`. -/
structure PyClass where
  cname : String
  bases : List Nat
  dict : List (String × Attr)
deriving Repr, DecidableEq

/-- The heap of class objects, indexed by declaration order.  Index 0 is
`object` and index 1 is `Interface` in every environment built below. -/
structure Env where
  classes : List PyClass
deriving Repr, DecidableEq

def Env.getClass (env : Env) (c : Nat) : PyClass :=
  env.classes.getD c ⟨"", [], []⟩

def Env.basesOf (env : Env) (c : Nat) : List Nat :=
  (env.getClass c).bases

/-- A Python class mentions only earlier-created classes among its bases; this
is forced by the language (a base must exist when the class statement runs)
and rules out cyclic inheritance. -/
def EnvWf (env : Env) : Prop := ∀ c, ∀ b ∈ env.basesOf c, b < c

def envWfB (env : Env) : Bool :=
  (List.range env.classes.length).all fun c => (env.basesOf c).all fun b => decide (b < c)

theorem envWf_of_envWfB (env : Env) (h : envWfB env = true) : EnvWf env := by
  intro c b hb
  by_cases hc : c < env.classes.length
  · have := (List.all_eq_true.mp h) c (List.mem_range.mpr hc)
    have := (List.all_eq_true.mp this) b hb
    exact of_decide_eq_true this
  · exfalso
    have : env.getClass c = ⟨"", [], []⟩ := by
      unfold Env.getClass
      exact List.getD_eq_default _ _ (Nat.le_of_not_lt hc)
    rw [Env.basesOf, this] at hb
    exact List.not_mem_nil b hb

/-- Fuel-indexed form of the source's `__get_ancestors`:
`return [aClass] + flatten([__get_ancestors(c) for c in aClass.__bases__])`.
`flatten` on a list of lists of atomic objects (class objects are atomic to
`flatten`) is concatenation.  The fuel only bounds the recursion depth; under
`EnvWf` the depth is at most the class index, so the wrapper `get_ancestors`
below satisfies the source's recursion equation (`get_ancestors_eq`). -/
def getAncestorsF (env : Env) : Nat → Nat → List Nat
  | 0, _ => []
  | fuel + 1, c => c :: ((env.basesOf c).map (getAncestorsF env fuel)).flatten

/-- The source's `__get_ancestors(aClass)`: the depth-first, left-to-right
ancestor walk, with repeats at shared ancestors. -/
def get_ancestors (env : Env) (c : Nat) : List Nat :=
  getAncestorsF env (c + 1) c

theorem getAncestorsF_eq_of_lt (env : Env) (hwf : EnvWf env) :
    ∀ fuel c, c < fuel → getAncestorsF env fuel c = getAncestorsF env (c + 1) c := by
  intro fuel
  induction fuel using Nat.strong_induction_on with
  | _ fuel ih =>
    match fuel with
    | 0 => exact fun c hc => absurd hc (Nat.not_lt_zero c)
    | fuel + 1 =>
      intro c hc
      simp only [getAncestorsF]
      congr 1
      apply congrArg
      apply List.map_congr_left
      intro b hb
      have hbc : b < c := hwf c b hb
      have h1 : getAncestorsF env fuel b = getAncestorsF env (b + 1) b :=
        ih fuel (Nat.lt_succ_self fuel) b (Nat.lt_of_lt_of_le hbc (Nat.lt_succ_iff.mp hc))
      have h2 : getAncestorsF env c b = getAncestorsF env (b + 1) b :=
        ih c hc b hbc
      rw [h1, h2]

/-- Under well-formed inheritance, `get_ancestors` satisfies the recursion the
source writes. -/
theorem get_ancestors_eq (env : Env) (hwf : EnvWf env) (c : Nat) :
    get_ancestors env c = c :: ((env.basesOf c).map (get_ancestors env)).flatten := by
  unfold get_ancestors
  simp only [getAncestorsF]
  congr 1
  apply congrArg
  apply List.map_congr_left
  intro b hb
  exact getAncestorsF_eq_of_lt env hwf c b (hwf c b hb)

theorem self_mem_get_ancestors (env : Env) (c : Nat) : c ∈ get_ancestors env c := by
  unfold get_ancestors getAncestorsF
  exact List.mem_cons_self _ _

theorem get_ancestors_trans (env : Env) (hwf : EnvWf env) :
    ∀ a b x, b ∈ get_ancestors env a → x ∈ get_ancestors env b →
      x ∈ get_ancestors env a := by
  intro a
  induction a using Nat.strong_induction_on with
  | _ a ih =>
    intro b x hb hx
    rw [get_ancestors_eq env hwf a] at hb ⊢
    rcases List.mem_cons.mp hb with h | h
    · rw [h] at hx
      rw [get_ancestors_eq env hwf a] at hx
      exact hx
    · rcases List.mem_flatten.mp h with ⟨l, hl, hbl⟩
      rcases List.mem_map.mp hl with ⟨c0, hc0, rfl⟩
      have : x ∈ get_ancestors env c0 := ih c0 (hwf a c0 hc0) b x hbl hx
      exact List.mem_cons.mpr (Or.inr (List.mem_flatten.mpr
        ⟨get_ancestors env c0, List.mem_map.mpr ⟨c0, hc0, rfl⟩, this⟩))

/-- An order oracle standing for the iteration order of a Python `set`: it
must produce a duplicate-free list with exactly the members of its input, and
nothing more is guaranteed (hashes of class objects are id-based). -/
def SetModel (σ : List Nat → List Nat) : Prop :=
  ∀ xs, (σ xs).Nodup ∧ ∀ x, x ∈ σ xs ↔ x ∈ xs

/-- One admissible set order: keep the first occurrence of each element. -/
def pyDedupAux (seen : List Nat) : List Nat → List Nat
  | [] => []
  | x :: xs => if x ∈ seen then pyDedupAux seen xs else x :: pyDedupAux (x :: seen) xs

def pyDedup (l : List Nat) : List Nat := pyDedupAux [] l

theorem mem_pyDedupAux (seen : List Nat) (l : List Nat) (x : Nat) :
    x ∈ pyDedupAux seen l ↔ x ∈ l ∧ x ∉ seen := by
  induction l generalizing seen with
  | nil => simp [pyDedupAux]
  | cons y ys ih =>
    by_cases hy : y ∈ seen
    · rw [pyDedupAux, if_pos hy, ih]
      constructor
      · rintro ⟨h1, h2⟩
        exact ⟨List.mem_cons.mpr (Or.inr h1), h2⟩
      · rintro ⟨h1, h2⟩
        rcases List.mem_cons.mp h1 with rfl | h1
        · exact absurd hy h2
        · exact ⟨h1, h2⟩
    · rw [pyDedupAux, if_neg hy]
      constructor
      · intro h
        rcases List.mem_cons.mp h with rfl | h
        · exact ⟨List.mem_cons.mpr (Or.inl rfl), hy⟩
        · rcases (ih (y :: seen)).mp h with ⟨h1, h2⟩
          exact ⟨List.mem_cons.mpr (Or.inr h1),
            fun hc => h2 (List.mem_cons.mpr (Or.inr hc))⟩
      · rintro ⟨h1, h2⟩
        by_cases hxy : x = y
        · exact List.mem_cons.mpr (Or.inl hxy)
        · rcases List.mem_cons.mp h1 with rfl | h1
          · exact absurd rfl hxy
          · refine List.mem_cons.mpr (Or.inr ((ih (y :: seen)).mpr ⟨h1, fun hc => ?_⟩))
            rcases List.mem_cons.mp hc with h | h
            · exact hxy h
            · exact h2 h

theorem nodup_pyDedupAux (seen : List Nat) (l : List Nat) :
    (pyDedupAux seen l).Nodup := by
  induction l generalizing seen with
  | nil => exact List.nodup_nil
  | cons y ys ih =>
    by_cases hy : y ∈ seen
    · simpa [pyDedupAux, if_pos hy] using ih seen
    · simp only [pyDedupAux, if_neg hy]
      refine List.nodup_cons.mpr ⟨?_, ih (y :: seen)⟩
      intro hc
      exact ((mem_pyDedupAux _ _ _).mp hc).2 (List.mem_cons.mpr (Or.inl rfl))

theorem setModel_pyDedup : SetModel pyDedup := by
  intro xs
  refine ⟨nodup_pyDedupAux [] xs, fun x => ?_⟩
  rw [pyDedup, mem_pyDedupAux]
  simp

/-- Another admissible set order, reversing the first. -/
def revDedup (l : List Nat) : List Nat := (pyDedup l).reverse

theorem setModel_revDedup : SetModel revDedup := by
  intro xs
  rcases setModel_pyDedup xs with ⟨h1, h2⟩
  exact ⟨List.nodup_reverse.mpr h1, fun x => by rw [revDedup, List.mem_reverse]; exact h2 x⟩

/-- A Python value, either a class object or an instance of a class (every
non-class value of Python 3 — an `int`, a string, an instance of a user class
— is an instance of some class; instance `__dict__`s play no role in the
claims and are not modelled). -/
inductive PyObj where
  | cls (c : Nat)
  | inst (c : Nat)
deriving Repr, DecidableEq

def PyObj.classOf : PyObj → Nat
  | .cls c => c
  | .inst c => c

/-- `inspect.isclass`. -/
def pyIsclass : PyObj → Bool
  | .cls _ => true
  | .inst _ => false

/-- The source's `ancestors(obj)` (with the default `exclude_interfaces=0`):
an instance is first resolved to its class, then the depth-first walk is
deduplicated by `list(set(repeated_ancestors))` — the set application `σ`. -/
def ancestors (σ : List Nat → List Nat) (env : Env) (x : PyObj) : List Nat :=
  σ (get_ancestors env x.classOf)

/-- The source's `ancestor_names(obj)`. -/
def ancestor_names (σ : List Nat → List Nat) (env : Env) (x : PyObj) : List String :=
  (ancestors σ env x).map fun c => (env.getClass c).cname

/-- Python's slice `s[-2:]`: the last two characters (the whole string when it
is shorter than two characters). -/
def strLastTwo (s : String) : String := ⟨s.data.drop (s.data.length - 2)⟩

/-- Python's slice `s[:-2]`: all but the last two characters (empty when the
string is shorter than two characters). -/
def strButLastTwo (s : String) : String := ⟨s.data.take (s.data.length - 2)⟩

/-- The source's `interface_body_name`:
`if len(imethod_name) < 3 or imethod_name[-2:] != "__": return imethod_name + "_body"`
`else: return imethod_name[:-2] + "_body" + imethod_name[-2:]`. -/
def interface_body_name (imethod_name : String) : String :=
  if imethod_name.length < 3 ∨ strLastTwo imethod_name ≠ "__" then
    imethod_name ++ "_body"
  else
    strButLastTwo imethod_name ++ "_body" ++ strLastTwo imethod_name

/-- Candidate search of the C3 merge: the head of the first list that occurs
in no list's tail. -/
def c3pick (all : List (List Nat)) : List (List Nat) → Option Nat
  | [] => none
  | [] :: rest => c3pick all rest
  | (h :: _) :: rest =>
      if all.all fun l => !((l.drop 1).contains h) then some h else c3pick all rest

/-- The C3 merge, fuel-bounded; `none` is the `TypeError` Python raises at
class creation for an unlinearisable hierarchy. -/
def c3merge : Nat → List (List Nat) → Option (List Nat)
  | 0, _ => none
  | fuel + 1, ls =>
      let ls' := ls.filter fun l => !l.isEmpty
      if ls'.isEmpty then some []
      else
        match c3pick ls' ls' with
        | none => none
        | some h => (c3merge fuel (ls'.map fun l => l.filter (· ≠ h))).map (h :: ·)

/-- `C.__mro__` by the C3 linearisation
`L(C) = C :: merge(L(B1), …, L(Bn), [B1, …, Bn])`, fuel-bounded on the class
index (bases have smaller indices, see `EnvWf`). -/
def mroF (env : Env) : Nat → Nat → Option (List Nat)
  | 0, _ => none
  | fuel + 1, c =>
      let bs := env.basesOf c
      match bs.mapM (mroF env fuel) with
      | none => none
      | some parentMros =>
          (c3merge ((parentMros.map List.length).sum + bs.length + 1)
            (parentMros ++ [bs])).map (c :: ·)

def mro (env : Env) (c : Nat) : Option (List Nat) :=
  mroF env (c + 1) c

def dictLookup (d : List (String × Attr)) (name : String) : Option Attr :=
  (d.find? fun p => p.1 == name).map Prod.snd

def lookupAlong (env : Env) (name : String) : List Nat → Option Attr
  | [] => none
  | k :: rest =>
      match dictLookup (env.getClass k).dict name with
      | some a => some a
      | none => lookupAlong env name rest

/-- `getattr` on a class object: the first class along the MRO whose own
`__dict__` binds the name provides the attribute; `none` is `AttributeError`. -/
def lookupClassAttr (env : Env) (c : Nat) (name : String) : Option Attr :=
  (mro env c).bind (lookupAlong env name)

/-- The result of a `getattr`: attribute access on a class yields the plain
function from the dictionary, access on an instance wraps it into a bound
method.  Python compares function objects by identity, a bound method never
compares equal to a plain function, and a fresh bound method has the same
`__code__` (hence `co_argcount`) as the function it wraps. -/
inductive LookedUp where
  | plainFn (f : Func)
  | boundMethod (f : Func)
  | nonFunc (a : Attr)
deriving Repr, DecidableEq

def pyGetattr (env : Env) : PyObj → String → Option LookedUp
  | .cls c, name =>
      (lookupClassAttr env c name).map fun a =>
        match a with
        | .func f => .plainFn f
        | a => .nonFunc a
  | .inst c, name =>
      (lookupClassAttr env c name).map fun a =>
        match a with
        | .func f => .boundMethod f
        | a => .nonFunc a

/-- Python `==` between looked-up attributes; on functions and bound methods
(of one fixed object, the only comparisons the source makes) this coincides
with `is`. -/
def luEq : LookedUp → LookedUp → Bool
  | .plainFn f, .plainFn g => f == g
  | .boundMethod f, .boundMethod g => f == g
  | .nonFunc a, .nonFunc b => a == b
  | _, _ => false

/-- `__code__.co_argcount` of a looked-up attribute; `none` is the
`AttributeError` a non-function raises on `.__code__`. -/
def luArgcount : LookedUp → Option Nat
  | .plainFn f => some f.argcount
  | .boundMethod f => some f.argcount
  | .nonFunc _ => none

/-- `Interface.error(self, *unused)`: `co_argcount` is 1 (only `self` is
positional), first varname `self`. -/
def errorF : Func := ⟨0, 1, ["self", "unused"]⟩

/-- `Interface.__init__(self, *args)`: `co_argcount` 1, first varname `self`
(so it is not a stub). -/
def interfaceInitF : Func := ⟨1, 1, ["self", "args"]⟩

/-- The builtin class `object`, always at index 0; its `__init__` is a slot
wrapper, not a `FunctionType`. -/
def objectClass : PyClass := ⟨"object", [], [("__init__", .other 0)]⟩

/-- The class `Interface` of interface.py, always at index 1:
`interface_flag = True`, the methods `error` and `__init__`. -/
def interfaceClass : PyClass :=
  ⟨"Interface", [0],
    [("interface_flag", .boolVal true), ("error", .func errorF),
     ("__init__", .func interfaceInitF)]⟩

/-- `issubclass(a, b)` on class ids: `b` is reachable from `a` through
`__bases__`, equivalently `b ∈ a.__mro__`. -/
def pyIssubclassB (env : Env) (a b : Nat) : Bool :=
  (get_ancestors env a).contains b

/-- The source's `is_interface(obj)`:
`issubclass(obj, Interface) if isclass(obj) else getattr(obj, 'interface_flag', False)`,
the result used for its truth value (opaque non-function attribute values are
modelled as truthy). -/
def isInterfaceB (env : Env) : PyObj → Bool
  | .cls c => pyIssubclassB env c 1
  | .inst c =>
      match lookupClassAttr env c "interface_flag" with
      | some (.boolVal b) => b
      | some (.func _) => true
      | some (.other _) => true
      | none => false

/-- The stub enumeration of `assert_implements` and `__implements` over an
interface's own `__dict__`: the `FunctionType` entries whose first
`co_varnames` entry is `iself` (the source compares with `is`; identifier
strings are interned, so this is string equality).  A function with empty
`co_varnames` cannot arise from a `def` with parameters; no interface of this
repository declares one. -/
def istubs (cl : PyClass) : List (String × Func) :=
  cl.dict.filterMap fun p =>
    match p.2 with
    | .func f => if f.varnames.head? = some "iself" then some (p.1, f) else none
    | _ => none

/-- The source's `issubclass(interface, body_method.__class__)` at
interface.py:467 and 234.  There `body_method` is `None`, a plain function or
a bound method, so `__class__` is the builtin `NoneType`, `function` or
`method` type object — never the class that defined the body.  No class of the
environment lists a builtin type among its bases, so the test evaluates to
`False` for every interface. -/
def issubclassBodyClass (_env : Env) (_iface : Nat) (_body : Option LookedUp) : Bool :=
  false

/-- `body_method_unimplemented` as computed at interface.py:466 (and 233):
`body_method and body_method is Interface.error or issubclass(interface, body_method.__class__)`,
which Python parses as
`(body_method and (body_method is Interface.error)) or issubclass(…)`. -/
def bodyUnimplemented (env : Env) (iface : Nat) (body : Option LookedUp) : Bool :=
  (body.isSome && decide (body = some (.plainFn errorF))) ||
    issubclassBodyClass env iface body

/-- The checks one iteration of the `__implements` loop (interface.py:457-481)
performs for the stub `(sname, smeth)` against `obj`; `true` when the stub
survives every check.  An `AttributeError` raised inside the loop makes
`__implements` return `False`, which for the boolean result is the same as
this stub's check failing. -/
def stubCheck (env : Env) (obj : PyObj) (iface : Nat) (sname : String) (smeth : Func) :
    Bool :=
  match pyGetattr env obj sname with
  | none => false
  | some impl =>
    match pyGetattr env obj (interface_body_name sname) with
    | some (.nonFunc _) => false
    | body =>
      let hasBody := body.isSome
      let unimpl := bodyUnimplemented env iface body
      if (luEq impl (.plainFn smeth) && !hasBody) || unimpl then false
      else
        match luArgcount impl with
        | none => false
        | some implArgs =>
          if (!luEq impl (.plainFn smeth) && decide (implArgs ≠ smeth.argcount)) ||
             (hasBody && !unimpl &&
               decide (body.bind luArgcount ≠ some smeth.argcount)) then false
          else true

/-- The `for` loop of `__implements` with its early `return False` and the
`implemented_a_method` flag. -/
def implLoop (env : Env) (obj : PyObj) (iface : Nat) :
    List (String × Func) → Bool → Bool
  | [], flag => flag
  | (sn, sf) :: rest, _ =>
      if stubCheck env obj iface sn sf then implLoop env obj iface rest true
      else false

/-- The source's private `__implements(obj, interface)`: enumerate the
interface's own stubs, run the per-stub checks, and finish with
`return not istub_tuples or implemented_a_method`. -/
def implementsPriv (env : Env) (obj : PyObj) (iface : Nat) : Bool :=
  match istubs (env.getClass iface) with
  | [] => true
  | stubs => implLoop env obj iface stubs false

theorem implLoop_true_eq_all (env : Env) (obj : PyObj) (iface : Nat) :
    ∀ l : List (String × Func),
      implLoop env obj iface l true = l.all fun p => stubCheck env obj iface p.1 p.2 := by
  intro l
  induction l with
  | nil => rfl
  | cons hd tl ih =>
    rcases hd with ⟨sn, sf⟩
    by_cases h : stubCheck env obj iface sn sf = true
    · simp [implLoop, h, ih]
    · simp [implLoop, h]

/-- `__implements` passes exactly when every declared stub passes its per-stub
check (the `implemented_a_method` flag is redundant: after a completed loop
over a non-empty stub list it is always `True`). -/
theorem implementsPriv_eq_all (env : Env) (obj : PyObj) (iface : Nat) :
    implementsPriv env obj iface =
      (istubs (env.getClass iface)).all fun p => stubCheck env obj iface p.1 p.2 := by
  unfold implementsPriv
  match h : istubs (env.getClass iface) with
  | [] => rfl
  | ⟨sn, sf⟩ :: rest =>
    by_cases hc : stubCheck env obj iface sn sf = true
    · simp [implLoop, hc, implLoop_true_eq_all]
    · simp [implLoop, hc]

/-- The data of one violation message `assert_implements` accumulates: the
arguments of the `%`-formats at interface.py:237-238 ("failed to define …")
and 244-246/249-251 ("takes … args, instead of …"). -/
inductive Violation where
  | missing (className iname bodyName stubName : String)
  | arityMismatch (className methodName : String) (takes expected : Nat)
      (iname imethodName : String)
deriving Repr, DecidableEq

/-- The exceptions the modelled fragment can raise, each a distinct raise
site of the source. -/
inductive PyErr where
  | attributeError
  | typeErrorNotClassOrInstance
  | typeErrorArgCount
  | typeErrorNotInterface
  | typeErrorIssubclassArg
  | interfaceError (vs : List Violation)
  | interfaceErrorNotInstantiable
deriving Repr, DecidableEq

deriving instance DecidableEq for Except

/-- The source's `interfaces(obj)`: an instance is first resolved to its
class, and the result filters the set-deduplicated ancestor list down to the
interface classes.  For the values modelled here (`obj.__class__` is always a
class) the `return None` branch for unsupported builtins is unreachable. -/
def interfacesOf (σ : List Nat → List Nat) (env : Env) (x : PyObj) : List Nat :=
  (ancestors σ env (.cls x.classOf)).filter fun i => isInterfaceB env (.cls i)

/-- The source's `interface_names(obj)`. -/
def interface_names (σ : List Nat → List Nat) (env : Env) (x : PyObj) : List String :=
  (interfacesOf σ env x).map fun c => (env.getClass c).cname

/-- `isinstance(x, K)` for an instance of class `c`: its type is `K` or a
subclass of `K`. -/
def pyIsinstanceB (env : Env) (c k : Nat) : Bool := pyIssubclassB env c k

/-- The `for interface in interface_seq` loop of `__class_implements`, with
its `TypeError` guard and early `return False`. -/
def classImplLoop (env : Env) (c : Nat) : List Nat → Except PyErr Bool
  | [] => .ok true
  | i :: rest =>
      if !isInterfaceB env (.cls i) then .error .typeErrorNotInterface
      else if pyIssubclassB env c i && implementsPriv env (.cls c) i then
        classImplLoop env c rest
      else .ok false

/-- `__class_implements(aClass, interface_seq)`.  A non-empty sequence is
replaced by `unique(interfaces(*interface_seq))`; `interfaces` takes a single
argument, so requesting two or more interfaces raises `TypeError` (wrong
argument count), and a single argument `i` yields `unique(interfaces(i))` —
`unique` being `list(set(flatten(…)))`, a further set application over the
already flat list of class objects. -/
def classImplements (σ : List Nat → List Nat) (env : Env) (c : Nat)
    (seq : List PyObj) : Except PyErr Bool :=
  match seq with
  | [] => .ok true
  | [i] => classImplLoop env c (σ (interfacesOf σ env i))
  | _ => .error .typeErrorArgCount

/-- The loop of `__instance_implements`, the instance counterpart. -/
def instImplLoop (env : Env) (c : Nat) : List Nat → Except PyErr Bool
  | [] => .ok true
  | i :: rest =>
      if !isInterfaceB env (.cls i) then .error .typeErrorNotInterface
      else if pyIsinstanceB env c i && implementsPriv env (.inst c) i then
        instImplLoop env c rest
      else .ok false

/-- `__instance_implements(instance, interface_seq)`. -/
def instImplements (σ : List Nat → List Nat) (env : Env) (c : Nat)
    (seq : List PyObj) : Except PyErr Bool :=
  match seq with
  | [] => .ok true
  | [i] => instImplLoop env c (σ (interfacesOf σ env i))
  | _ => .error .typeErrorArgCount

/-- `isinstance(obj, object)`: every Python 3 value, class or not, is an
instance of `object`. -/
def pyIsinstanceObject : PyObj → Bool := fun _ => true

/-- Which branch of the `implements` dispatch chain (interface.py:287-296)
handles `obj`: 1 `isclass`, 2 `isinstance(obj, object)`, 3 the
`is_interface` branch returning `False`, 4 the final `raise TypeError`. -/
def implementsBranch (env : Env) (obj : PyObj) : Nat :=
  if pyIsclass obj then 1
  else if pyIsinstanceObject obj then 2
  else if isInterfaceB env obj then 3
  else 4

/-- The source's `implements(obj, *interfaces)` with its dispatch chain
written out; the two final branches are kept even though
`isinstance(obj, object)` shadows them. -/
def implements (σ : List Nat → List Nat) (env : Env) (obj : PyObj)
    (seq : List PyObj) : Except PyErr Bool :=
  match obj with
  | .cls c => classImplements σ env c seq
  | .inst c =>
      if pyIsinstanceObject (.inst c) then instImplements σ env c seq
      else if isInterfaceB env (.inst c) then .ok false
      else .error .typeErrorNotClassOrInstance

/-- The builtin `issubclass`: raises `TypeError` unless both arguments are
classes. -/
def pyIssubclassE (env : Env) (a b : PyObj) : Except PyErr Bool :=
  match a, b with
  | .cls x, .cls y => .ok (pyIssubclassB env x y)
  | _, _ => .error .typeErrorIssubclassArg

/-- The comprehension `[issubclass(interface, anc) for anc in interfaces]`:
`issubclass` is evaluated on every element left to right, the first
`TypeError` propagating. -/
def issubclassComp (env : Env) (first : PyObj) : List PyObj → Except PyErr (List Bool)
  | [] => .ok []
  | r :: rest =>
      match pyIssubclassE env first r with
      | .error e => .error e
      | .ok b =>
          match issubclassComp env first rest with
          | .error e => .error e
          | .ok bs => .ok (b :: bs)

/-- The source's `extends(interface, *interfaces)`: the two `is_interface`
guards, then `all([issubclass(interface, anc) for anc in interfaces])`. -/
def pyExtends (env : Env) (first : PyObj) (rest : List PyObj) : Except PyErr Bool :=
  if !isInterfaceB env first then .error .typeErrorNotInterface
  else if rest.any fun i => !isInterfaceB env i then .error .typeErrorNotInterface
  else (issubclassComp env first rest).map fun rs => rs.all id

/-- The body of the `for stub_name, stub_method in istub_tuples` loop of
`assert_implements` (interface.py:223-258) for one stub: the violations it
appends to `errors`.  `getattr(aClass, stub_name)` (line 225) sits outside
the `try`, so its `AttributeError` propagates out of `assert_implements`
(`.error`); an `AttributeError` raised inside the `try` — a `__code__` read
on a non-function body (line 229) or implementation (line 240) — is caught at
line 253, and since `hasattr(aClass, stub_name)` holds there, it is passed
over, keeping any violation already appended. -/
def stubErrors (env : Env) (c iface : Nat) (sname : String) (smeth : Func) :
    Except PyErr (List Violation) :=
  let cn := (env.getClass c).cname
  let iname := (env.getClass iface).cname
  let bname := interface_body_name sname
  match pyGetattr env (.cls c) sname with
  | none => .error .attributeError
  | some impl =>
    match pyGetattr env (.cls c) bname with
    | some (.nonFunc _) => .ok []
    | body =>
      let hasBody := body.isSome
      let unimpl := bodyUnimplemented env iface body
      let e1 : List Violation :=
        if (luEq impl (.plainFn smeth) && !hasBody) || unimpl then
          [.missing cn iname bname sname]
        else []
      match luArgcount impl with
      | none => .ok e1
      | some implArgs =>
        let e2 : List Violation :=
          if !luEq impl (.plainFn smeth) && decide (implArgs ≠ smeth.argcount) then
            [.arityMismatch cn sname implArgs smeth.argcount iname sname]
          else if hasBody && !unimpl &&
              decide (body.bind luArgcount ≠ some smeth.argcount) then
            [.arityMismatch cn bname ((body.bind luArgcount).getD 0) smeth.argcount
              iname bname]
          else []
        .ok (e1 ++ e2)

/-- The stub loop of `assert_implements` for one interface, appending in
source order. -/
def ifaceErrors (env : Env) (c iface : Nat) :
    List (String × Func) → Except PyErr (List Violation)
  | [] => .ok []
  | (sn, sf) :: rest =>
      match stubErrors env c iface sn sf with
      | .error e => .error e
      | .ok vs =>
          match ifaceErrors env c iface rest with
          | .error e => .error e
          | .ok more => .ok (vs ++ more)

def interfaceErrors (env : Env) (c iface : Nat) : Except PyErr (List Violation) :=
  ifaceErrors env c iface (istubs (env.getClass iface))

/-- The outer `for interface in interface_list` loop of `assert_implements`,
accumulating `errors` across every interface without short-circuiting. -/
def errorsForIfaces (env : Env) (c : Nat) : List Nat → Except PyErr (List Violation)
  | [] => .ok []
  | i :: rest =>
      match interfaceErrors env c i with
      | .error e => .error e
      | .ok vs =>
          match errorsForIfaces env c rest with
          | .error e => .error e
          | .ok more => .ok (vs ++ more)

/-- `interface_list = interfaces(aClass)` of `assert_implements`. -/
def ifaceSeq (σ : List Nat → List Nat) (env : Env) (c : Nat) : List Nat :=
  interfacesOf σ env (.cls c)

def errorsAccum (σ : List Nat → List Nat) (env : Env) (c : Nat) :
    Except PyErr (List Violation) :=
  errorsForIfaces env c (ifaceSeq σ env c)

/-- Python class attribute assignment `aClass.attr = v`: the class's own
`__dict__` is updated in place — an existing key keeps its position, a new key
is appended. -/
def dictSet (d : List (String × Attr)) (k : String) (v : Attr) :
    List (String × Attr) :=
  if d.any fun p => p.1 == k then d.map fun p => if p.1 == k then (k, v) else p
  else d ++ [(k, v)]

def setClassAttr (env : Env) (c : Nat) (k : String) (v : Attr) : Env :=
  ⟨env.classes.set c
    { env.getClass c with dict := dictSet (env.getClass c).dict k v }⟩

/-- The source's `assert_implements(aClass)` on a class argument, with
`__debug__` true (runtime assertions enabled): the returned
result — `InterfaceError` carrying every accumulated violation, `True`, or
`False` — paired with the class heap after the one possible mutation
`aClass.interface_flag = False` (interface.py:267).  The `print` calls
re-render the same violation list and are output, not state. -/
def assert_implements (σ : List Nat → List Nat) (env : Env) (c : Nat) :
    Except PyErr Bool × Env :=
  match errorsAccum σ env c with
  | .error e => (.error e, env)
  | .ok [] =>
      if (ifaceSeq σ env c).isEmpty then (.ok false, env)
      else (.ok true, setClassAttr env c "interface_flag" (.boolVal false))
  | .ok es => (.error (.interfaceError es), env)

/-- Instantiating class `c` (calling the class object): the `__init__` the
class resolves runs on the fresh instance.  `Interface.__init__` raises
`InterfaceError("(%s): an interface may not be instantiated; …")` no matter
which arguments were passed (they do not even reach the message); any other
`__init__` is beyond the claims and abstracted as returning the instance. -/
def instantiate (env : Env) (c : Nat) (_args : List Attr) : Except PyErr PyObj :=
  match lookupClassAttr env c "__init__" with
  | some (.func f) =>
      if f == interfaceInitF then .error .interfaceErrorNotInstantiable
      else .ok (.inst c)
  | _ => .ok (.inst c)

/-! ## Concrete environments

Small class heaps used by the claim theorems, each with `object` at index 0
and `Interface` at index 1 as in every run of interface.py. -/

def mkEnv (rest : List PyClass) : Env := ⟨objectClass :: interfaceClass :: rest⟩

/-- A stub `s(iself, x)`. -/
def stubF : Func := ⟨10, 2, ["iself", "x"]⟩

/-- A second stub `s2(iself, y)`. -/
def stubF2 : Func := ⟨12, 2, ["iself", "y"]⟩

/-- An implementor-side method `(self, x)` of arity 2. -/
def implF : Func := ⟨11, 2, ["self", "x"]⟩

/-- A genuine (non-error) body function `(iself, x)` a protocol might supply. -/
def bodyF : Func := ⟨13, 2, ["iself", "x"]⟩

/-- Diamond hierarchy `A(object)`, `B(A)`, `C(A)`, `D(B, C)` at indices 2-5. -/
def envDiamond : Env := mkEnv
  [⟨"A", [0], []⟩, ⟨"B", [2], []⟩, ⟨"C", [2], []⟩, ⟨"D", [3, 4], []⟩]

/-- Protocol `P` (2) declares stub `s` and the conventional default body
`s_body = Interface.error`; implementor `T` (3) replaces the stub `s`
directly with a matching-arity method. -/
def envC2 : Env := mkEnv
  [⟨"P", [1], [("s", .func stubF), ("s_body", .func errorF)]⟩,
   ⟨"T", [2], [("s", .func implF)]⟩]

/-- Protocol `P` (2) declares stub `s` and a genuine default body
`s_body = bodyF`; class `T` (3) inherits everything unchanged. -/
def envC3 : Env := mkEnv
  [⟨"P", [1], [("s", .func stubF), ("s_body", .func bodyF)]⟩, ⟨"T", [2], []⟩]

/-- Protocol `P` (2) declares two stubs; class `T` (3) implements neither. -/
def envC4 : Env := mkEnv
  [⟨"P", [1], [("s1", .func stubF), ("s2", .func stubF2)]⟩, ⟨"T", [2], []⟩]

/-- Protocol `Q` (2) declares stub `s`; protocol `P` (3) extends `Q` adding
nothing; class `T` (4) inherits `P` and implements nothing. -/
def envC7 : Env := mkEnv
  [⟨"Q", [1], [("s", .func stubF)]⟩, ⟨"P", [2], []⟩, ⟨"T", [3], []⟩]

/-- Protocol `P` (2) with no stubs; class `T` (3) inheriting it. -/
def envC7b : Env := mkEnv [⟨"P", [1], []⟩, ⟨"T", [2], []⟩]

/-- A single protocol `P` (2) below `Interface`. -/
def envC8 : Env := mkEnv [⟨"P", [1], []⟩]

/-! ## Claim C5: the stub-to-body naming rule -/

theorem strEq_of_data {a b : String} (h : a.data = b.data) : a = b := by
  cases a
  cases b
  exact congrArg String.mk h

/-- C5 counterexample: the two-character stub name `"__"` does end in the
double-trailing marker, yet `interface_body_name` takes the `len < 3` branch
and appends, producing `"___body"` where the claim requires the insertion
`"_body__"`. -/
theorem C5_body_name_counterexample :
    interface_body_name "__" = "___body" ∧ interface_body_name "__" ≠ "_body__" :=
  ⟨by decide, by decide⟩

/-- C5 (amended): `interface_body_name` appends `"_body"` whenever the name
is shorter than three characters or its last two characters are not `"__"`;
for every name of the form `t ++ "__"` with `t` non-empty (so of length at
least three) it inserts, returning `t ++ "_body__"`; in particular
`"cmp" ↦ "cmp_body"` and `"__cmp__" ↦ "__cmp_body__"`.  The only inputs the
original sentence misjudged are those shorter than three characters ending in
`"__"` — exactly the string `"__"` of the counterexample. -/
theorem C5_body_name_amended :
    (∀ s : String, (s.length < 3 ∨ strLastTwo s ≠ "__") →
      interface_body_name s = s ++ "_body") ∧
    (∀ t : String, 1 ≤ t.length →
      interface_body_name (t ++ "__") = t ++ "_body__") ∧
    interface_body_name "cmp" = "cmp_body" ∧
    interface_body_name "__cmp__" = "__cmp_body__" := by
  refine ⟨fun s h => by rw [interface_body_name, if_pos h], fun t ht => ?_,
    by decide, by decide⟩
  have hdata : (t ++ "__").data = t.data ++ ['_', '_'] := by
    rw [String.data_append]
  have hlen : t.data.length + (['_', '_'] : List Char).length - 2 = t.data.length := by
    simp
  have hlast : strLastTwo (t ++ "__") = "__" := by
    apply strEq_of_data
    show ((t ++ "__").data).drop ((t ++ "__").data.length - 2) = "__".data
    rw [hdata, List.length_append, hlen, List.drop_left]
  have hbutlast : strButLastTwo (t ++ "__") = t := by
    apply strEq_of_data
    show ((t ++ "__").data).take ((t ++ "__").data.length - 2) = t.data
    rw [hdata, List.length_append, hlen, List.take_left]
  have hlength : (t ++ "__").length = t.length + 2 := by
    rw [String.length_append]
    rfl
  have hcond : ¬((t ++ "__").length < 3 ∨ strLastTwo (t ++ "__") ≠ "__") := by
    rw [hlength, hlast]
    push_neg
    exact ⟨by omega, rfl⟩
  rw [interface_body_name, if_neg hcond, hlast, hbutlast]
  apply strEq_of_data
  rw [String.data_append, String.data_append, String.data_append, List.append_assoc]
  apply congrArg
  rfl

/-! ## Claim C10: the `implements` dispatch chain is total -/

theorem classImplLoop_not_dispatch_error (env : Env) (c : Nat) :
    ∀ l, classImplLoop env c l ≠ .error .typeErrorNotClassOrInstance := by
  intro l
  induction l with
  | nil => exact fun h => by cases h
  | cons i rest ih =>
    by_cases h1 : (!isInterfaceB env (.cls i)) = true
    · rw [classImplLoop, if_pos h1]
      exact fun h => by cases h
    · rw [classImplLoop, if_neg h1]
      by_cases h2 : (pyIssubclassB env c i && implementsPriv env (.cls c) i) = true
      · rw [if_pos h2]
        exact ih
      · rw [if_neg h2]
        exact fun h => by cases h

theorem instImplLoop_not_dispatch_error (env : Env) (c : Nat) :
    ∀ l, instImplLoop env c l ≠ .error .typeErrorNotClassOrInstance := by
  intro l
  induction l with
  | nil => exact fun h => by cases h
  | cons i rest ih =>
    by_cases h1 : (!isInterfaceB env (.cls i)) = true
    · rw [instImplLoop, if_pos h1]
      exact fun h => by cases h
    · rw [instImplLoop, if_neg h1]
      by_cases h2 : (pyIsinstanceB env c i && implementsPriv env (.inst c) i) = true
      · rw [if_pos h2]
        exact ih
      · rw [if_neg h2]
        exact fun h => by cases h

/-- C10: every value reaches the class path or the instance path of
`implements` — `isinstance(obj, object)` holds of every Python 3 value — so
the `is_interface` branch returning `False` and the final
`raise TypeError("obj must be a class or instance")` are unreachable, and
`implements` never raises that `TypeError`. -/
theorem C10_dispatch_total :
    ∀ (env : Env) (obj : PyObj),
      (implementsBranch env obj = 1 ∨ implementsBranch env obj = 2) ∧
      ∀ (σ : List Nat → List Nat) (seq : List PyObj),
        implements σ env obj seq ≠ .error .typeErrorNotClassOrInstance := by
  intro env obj
  constructor
  · cases obj with
    | cls c => exact Or.inl rfl
    | inst c => exact Or.inr rfl
  · intro σ seq
    cases obj with
    | cls c =>
      show classImplements σ env c seq ≠ _
      match seq with
      | [] => exact fun h => by cases h
      | [i] => exact classImplLoop_not_dispatch_error env c _
      | a :: b :: rest => exact fun h => by cases h
    | inst c =>
      show instImplements σ env c seq ≠ _
      match seq with
      | [] => exact fun h => by cases h
      | [i] => exact instImplLoop_not_dispatch_error env c _
      | a :: b :: rest => exact fun h => by cases h

/-! ## Claim C1: the ancestor list order -/

/-- C1 (code bug evidence): on the diamond `D(B, C)` of `envDiamond`, the
depth-first left-to-right walk with repeats is `[D, B, A, object, C, A,
object]`, so the first-seen deduplication the claim (and the docstring of
`ancestors` itself: "Ancestors are returned in depth-first order, left to
right") promises would be `[D, B, A, object, C]`.  The source instead
returns `list(set(repeated_ancestors))`, whose iteration order is id-hash
dependent.  `pyDedup` and `revDedup` are both admissible set orders
(`setModel_pyDedup`, `setModel_revDedup`); under the second, the result lists
each ancestor exactly once — the deduplication half of the claim holds under
every admissible order — but is `[C, object, A, B, D]`: not first-seen
depth-first order, and the object's own type `D` is not first. -/
theorem C1_ancestors_set_order :
    get_ancestors envDiamond 5 = [5, 3, 2, 0, 4, 2, 0] ∧
    ancestors pyDedup envDiamond (.cls 5) = [5, 3, 2, 0, 4] ∧
    ancestors revDedup envDiamond (.cls 5) = [4, 0, 2, 3, 5] ∧
    (ancestors revDedup envDiamond (.cls 5)).head? ≠ some 5 ∧
    (ancestors revDedup envDiamond (.cls 5)).Nodup ∧
    (ancestors pyDedup envDiamond (.cls 5)).Nodup ∧
    ancestor_names revDedup envDiamond (.cls 5) = ["C", "object", "A", "B", "D"] :=
  ⟨by decide, by decide, by decide, by decide, by decide, by decide, by decide⟩

/-! ## Claim C2: the per-stub pass condition -/

/-- C2 counterexample: in `envC2` the implementor `T` (class 3) replaces stub
`s` directly — the resolved method differs from the original stub and has the
stub's arity, so clause (i) of the claim accepts the stub — yet the per-stub
check fails (and with it `__implements`), because the protocol's conventional
default body `s_body = Interface.error`, inherited untouched, makes
`body_method_unimplemented` true irrespective of the replacement. -/
theorem C2_pass_condition_counterexample :
    pyGetattr envC2 (.cls 3) "s" = some (.plainFn implF) ∧
    implF ≠ stubF ∧
    implF.argcount = stubF.argcount ∧
    istubs (envC2.getClass 2) = [("s", stubF)] ∧
    pyGetattr envC2 (.cls 3) "s_body" = some (.plainFn errorF) ∧
    stubCheck envC2 (.cls 3) 2 "s" stubF = false ∧
    implementsPriv envC2 (.cls 3) 2 = false :=
  ⟨by decide, by decide, by decide, by decide, by decide, by decide, by decide⟩

/-- The pass condition that actually governs the per-stub check, stated as
one flat conjunction over the resolved attributes: the stub name must resolve
to a function-like attribute `impl`; the body attribute, when present, must
be function-like; the body must not be "unimplemented" (must not be the plain
`Interface.error`); `impl` must differ from the original stub or a body must
exist; when `impl` differs its arity must equal the stub's; and when a body
exists its arity must equal the stub's (whether or not `impl` was replaced). -/
def stubPassSpec (env : Env) (obj : PyObj) (iface : Nat) (sname : String)
    (smeth : Func) : Bool :=
  match pyGetattr env obj sname with
  | none => false
  | some impl =>
    match pyGetattr env obj (interface_body_name sname) with
    | some (.nonFunc _) => false
    | body =>
      match luArgcount impl with
      | none => false
      | some implArgs =>
        let differs := !luEq impl (.plainFn smeth)
        !bodyUnimplemented env iface body &&
        (differs || body.isSome) &&
        (!differs || decide (implArgs = smeth.argcount)) &&
        (!body.isSome || decide (body.bind luArgcount = some smeth.argcount))


/-- C2 (amended): the per-stub conformance check passes exactly under
`stubPassSpec`.  Beyond clauses (i) and (ii) of the original claim, a body
attribute that exists must always be a non-unimplemented function of the
stub's arity — even when the implementor replaced the stub directly, so a
stale inherited `Interface.error` body (or a wrong-arity body) fails a
direct replacement that clause (i) would accept. -/
theorem C2_stubCheck_characterisation :
    ∀ (env : Env) (obj : PyObj) (iface : Nat) (sname : String) (smeth : Func),
      stubCheck env obj iface sname smeth = stubPassSpec env obj iface sname smeth := by
  intro env obj iface sname smeth
  unfold stubCheck stubPassSpec
  cases pyGetattr env obj sname with
  | none => rfl
  | some impl =>
    rcases hb : pyGetattr env obj (interface_body_name sname) with _ | lu
    · cases impl with
      | plainFn f =>
        simp only [bodyUnimplemented, issubclassBodyClass, luEq, luArgcount]
        cases h1 : (f == smeth) <;> cases h2 : decide (f.argcount = smeth.argcount) <;>
          simp_all [decide_not]
      | boundMethod f =>
        simp only [bodyUnimplemented, issubclassBodyClass, luEq, luArgcount]
        cases h2 : decide (f.argcount = smeth.argcount) <;> simp_all [decide_not]
      | nonFunc a =>
        simp only [bodyUnimplemented, issubclassBodyClass, luEq, luArgcount]
        simp
    · cases lu with
      | nonFunc a => rfl
      | plainFn g =>
        cases impl with
        | plainFn f =>
          simp only [bodyUnimplemented, issubclassBodyClass, luEq, luArgcount]
          by_cases hg : g = errorF <;>
            cases h1 : (f == smeth) <;>
            cases h2 : decide (f.argcount = smeth.argcount) <;>
            cases h3 : decide (g.argcount = smeth.argcount) <;>
            simp_all [decide_not]
        | boundMethod f =>
          simp only [bodyUnimplemented, issubclassBodyClass, luEq, luArgcount]
          by_cases hg : g = errorF <;>
            cases h2 : decide (f.argcount = smeth.argcount) <;>
            cases h3 : decide (g.argcount = smeth.argcount) <;>
            simp_all [decide_not]
        | nonFunc a =>
          simp only [bodyUnimplemented, issubclassBodyClass, luEq, luArgcount]
          simp
      | boundMethod g =>
        cases impl with
        | plainFn f =>
          simp only [bodyUnimplemented, issubclassBodyClass, luEq, luArgcount]
          cases h1 : (f == smeth) <;> cases h2 : decide (f.argcount = smeth.argcount) <;>
            cases h3 : decide (g.argcount = smeth.argcount) <;>
            simp_all [decide_not]
        | boundMethod f =>
          simp only [bodyUnimplemented, issubclassBodyClass, luEq, luArgcount]
          cases h2 : decide (f.argcount = smeth.argcount) <;>
            cases h3 : decide (g.argcount = smeth.argcount) <;>
            simp_all [decide_not]
        | nonFunc a =>
          simp only [bodyUnimplemented, issubclassBodyClass, luEq, luArgcount]
          simp

/-! ## Claim C3: the "unimplemented body" determination -/

/-- C3 counterexample: in `envC3` the protocol `P` (an interface class, and
an ancestor of `T`) supplies a genuine body `s_body = bodyF` that `T` never
overrides — `T`'s own `__dict__` lacks `s_body`, the resolution finds `P`'s
entry.  The claim's second disjunct ("inherited from a protocol ancestor that
never overrides it, determined by a subclass test against the body's defining
type") classifies this body as unimplemented; the code classifies it as
implemented (`body_method_unimplemented` is `False`), and the stub passes —
`T` conforms without defining anything. -/
theorem C3_unimplemented_counterexample :
    pyGetattr envC3 (.cls 3) "s_body" = some (.plainFn bodyF) ∧
    dictLookup (envC3.getClass 3).dict "s_body" = none ∧
    dictLookup (envC3.getClass 2).dict "s_body" = some (.func bodyF) ∧
    isInterfaceB envC3 (.cls 2) = true ∧
    pyIssubclassB envC3 3 2 = true ∧
    bodyF ≠ errorF ∧
    bodyUnimplemented envC3 2 (pyGetattr envC3 (.cls 3) "s_body") = false ∧
    stubCheck envC3 (.cls 3) 2 "s" stubF = true :=
  ⟨by decide, by decide, by decide, by decide, by decide, by decide, by decide, by decide⟩

/-- C3 (amended): the body is classified "unimplemented" exactly when it is
the protocol's designated error operation resolved as a plain function.  The
second test of the source, `issubclass(interface, body_method.__class__)`,
compares the interface against the body's runtime type (`function`, `method`
or `NoneType`) — never against the class that defined the body — and is
always false; inheritance of a genuine body from a protocol ancestor is
never detected. -/
theorem C3_unimplemented_characterisation :
    ∀ (env : Env) (iface : Nat) (body : Option LookedUp),
      bodyUnimplemented env iface body = decide (body = some (.plainFn errorF)) := by
  intro env iface body
  unfold bodyUnimplemented issubclassBodyClass
  cases body with
  | none => simp
  | some lu => simp

/-! ## Claim C4: all violations are accumulated into one raised error -/

theorem ifaceErrors_mem (env : Env) (c iface : Nat) :
    ∀ (stubs : List (String × Func)) (es : List Violation),
      ifaceErrors env c iface stubs = .ok es →
      ∀ p ∈ stubs, ∀ vs, stubErrors env c iface p.1 p.2 = .ok vs →
      ∀ v ∈ vs, v ∈ es := by
  intro stubs
  induction stubs with
  | nil =>
    intro es h p hp
    cases hp
  | cons q rest ih =>
    intro es h p hp vs hvs v hv
    rcases q with ⟨sn, sf⟩
    simp only [ifaceErrors] at h
    cases h1 : stubErrors env c iface sn sf with
    | error e =>
      rw [h1] at h
      cases h
    | ok va =>
      rw [h1] at h
      cases h2 : ifaceErrors env c iface rest with
      | error e =>
        rw [h2] at h
        cases h
      | ok vb =>
        rw [h2] at h
        injection h with h
        subst h
        rcases List.mem_cons.mp hp with hpq | hp
        · apply List.mem_append_left
          rw [hpq] at hvs
          have : va = vs := by
            injection h1.symm.trans hvs
          rw [← this] at hv
          exact hv
        · exact List.mem_append_right _ (ih vb h2 p hp vs hvs v hv)

theorem errorsForIfaces_mem (env : Env) (c : Nat) :
    ∀ (L : List Nat) (es : List Violation),
      errorsForIfaces env c L = .ok es →
      ∀ i ∈ L, ∀ p ∈ istubs (env.getClass i),
      ∀ vs, stubErrors env c i p.1 p.2 = .ok vs → ∀ v ∈ vs, v ∈ es := by
  intro L
  induction L with
  | nil =>
    intro es h i hi
    cases hi
  | cons j rest ih =>
    intro es h i hi p hp vs hvs v hv
    simp only [errorsForIfaces] at h
    cases h1 : interfaceErrors env c j with
    | error e =>
      rw [h1] at h
      cases h
    | ok va =>
      rw [h1] at h
      cases h2 : errorsForIfaces env c rest with
      | error e =>
        rw [h2] at h
        cases h
      | ok vb =>
        rw [h2] at h
        injection h with h
        subst h
        rcases List.mem_cons.mp hi with rfl | hi
        · apply List.mem_append_left
          rw [interfaceErrors] at h1
          exact ifaceErrors_mem env c i (istubs (env.getClass i)) va h1 p hp vs hvs v hv
        · exact List.mem_append_right _ (ih vb h2 i hi p hp vs hvs v hv)

/-- C4: when the validation pass (assertions enabled) completes and has found
violations, `assert_implements` raises exactly one `InterfaceError` carrying
the entire accumulated list and leaves the heap untouched; every violation
contributed by any stub of any interface in the walked ancestry appears in
that single error — nothing is raised at the first violation. -/
theorem C4_all_violations_one_error :
    ∀ (σ : List Nat → List Nat) (env : Env) (c : Nat) (es : List Violation),
      errorsAccum σ env c = .ok es → es ≠ [] →
      assert_implements σ env c = (.error (.interfaceError es), env) ∧
      ∀ i ∈ ifaceSeq σ env c, ∀ p ∈ istubs (env.getClass i),
        ∀ vs, stubErrors env c i p.1 p.2 = .ok vs → ∀ v ∈ vs, v ∈ es := by
  intro σ env c es h hne
  constructor
  · unfold assert_implements
    rw [h]
    cases es with
    | nil => exact absurd rfl hne
    | cons v vs => rfl
  · intro i hi p hp vs hvs v hv
    rw [errorsAccum] at h
    exact errorsForIfaces_mem env c (ifaceSeq σ env c) es h i hi p hp vs hvs v hv

/-- C4 witness: in `envC4` the class `T` omits both stubs `s1` and `s2` of
protocol `P`; the one raised `InterfaceError` enumerates both violations. -/
theorem C4_witness :
    assert_implements pyDedup envC4 3 =
      (.error (.interfaceError
        [.missing "T" "P" "s1_body" "s1", .missing "T" "P" "s2_body" "s2"]), envC4) :=
  (C4_all_violations_one_error pyDedup envC4 3
    [.missing "T" "P" "s1_body" "s1", .missing "T" "P" "s2_body" "s2"]
    (by decide) (by decide)).1

/-! ## Claim C6: the frame effect of `assert_implements` -/

theorem find?_map_set_ne (d : List (String × Attr)) (k k' : String) (v : Attr)
    (hne : k' ≠ k) :
    ((d.map fun p => if p.1 == k then (k, v) else p).find? fun p => p.1 == k') =
      d.find? fun p => p.1 == k' := by
  induction d with
  | nil => rfl
  | cons q rest ih =>
    by_cases hq : (q.1 == k) = true
    · have hqk : q.1 = k := by
        exact beq_iff_eq.mp hq
      have h1 : ¬(((k, v).1 == k') = true) := by
        simp only [beq_iff_eq]
        exact fun hc => hne hc.symm
      have h2 : ¬((q.1 == k') = true) := by
        simp only [beq_iff_eq, hqk]
        exact fun hc => hne hc.symm
      rw [List.map_cons, if_pos hq,
        @List.find?_cons_of_neg _ (fun p => p.1 == k') (k, v) _ h1,
        @List.find?_cons_of_neg _ (fun p => p.1 == k') q _ h2]
      exact ih
    · rw [List.map_cons, if_neg hq]
      by_cases hq' : (q.1 == k') = true
      · rw [@List.find?_cons_of_pos _ (fun p => p.1 == k') q _ hq',
          @List.find?_cons_of_pos _ (fun p => p.1 == k') q _ hq']
      · rw [@List.find?_cons_of_neg _ (fun p => p.1 == k') q _ hq',
          @List.find?_cons_of_neg _ (fun p => p.1 == k') q _ hq']
        exact ih

theorem find?_append_single_ne (d : List (String × Attr)) (k k' : String) (v : Attr)
    (hne : k' ≠ k) :
    ((d ++ [(k, v)]).find? fun p => p.1 == k') = d.find? fun p => p.1 == k' := by
  induction d with
  | nil =>
    have h1 : ¬(((k, v).1 == k') = true) := by
      simp only [beq_iff_eq]
      exact fun hc => hne hc.symm
    rw [List.nil_append, @List.find?_cons_of_neg _ (fun p => p.1 == k') (k, v) _ h1,
      List.find?_nil]
  | cons q rest ih =>
    by_cases hq' : (q.1 == k') = true
    · rw [List.cons_append, @List.find?_cons_of_pos _ (fun p => p.1 == k') q _ hq',
        @List.find?_cons_of_pos _ (fun p => p.1 == k') q _ hq']
    · rw [List.cons_append, @List.find?_cons_of_neg _ (fun p => p.1 == k') q _ hq',
        @List.find?_cons_of_neg _ (fun p => p.1 == k') q _ hq']
      exact ih

theorem find?_map_set_self (d : List (String × Attr)) (k : String) (v : Attr)
    (hany : (d.any fun p => p.1 == k) = true) :
    ((d.map fun p => if p.1 == k then (k, v) else p).find? fun p => p.1 == k) =
      some (k, v) := by
  induction d with
  | nil => cases hany
  | cons q rest ih =>
    by_cases hq : (q.1 == k) = true
    · rw [List.map_cons, if_pos hq,
        @List.find?_cons_of_pos _ (fun p => p.1 == k) (k, v) _ (by simp)]
    · rw [List.map_cons, if_neg hq,
        @List.find?_cons_of_neg _ (fun p => p.1 == k) q _ hq]
      apply ih
      simpa [List.any_cons, hq] using hany

theorem find?_append_single_self (d : List (String × Attr)) (k : String) (v : Attr) :
    ((d.any fun p => p.1 == k) = false) →
    ((d ++ [(k, v)]).find? fun p => p.1 == k) = some (k, v) := by
  induction d with
  | nil =>
    intro _
    rw [List.nil_append,
      @List.find?_cons_of_pos _ (fun p => p.1 == k) (k, v) _ (by simp)]
  | cons q rest ih =>
    intro hany
    simp only [List.any_cons, Bool.or_eq_false_iff] at hany
    rw [List.cons_append,
      @List.find?_cons_of_neg _ (fun p => p.1 == k) q _ (by simp [hany.1])]
    exact ih hany.2

theorem dictLookup_dictSet_self (d : List (String × Attr)) (k : String) (v : Attr) :
    dictLookup (dictSet d k v) k = some v := by
  unfold dictLookup dictSet
  by_cases hany : (d.any fun p => p.1 == k) = true
  · rw [if_pos hany, find?_map_set_self d k v hany]
    rfl
  · rw [if_neg hany, find?_append_single_self d k v (Bool.eq_false_iff.mpr hany)]
    rfl

theorem dictLookup_dictSet_ne (d : List (String × Attr)) (k k' : String) (v : Attr)
    (hne : k' ≠ k) :
    dictLookup (dictSet d k v) k' = dictLookup d k' := by
  unfold dictLookup dictSet
  by_cases hany : (d.any fun p => p.1 == k) = true
  · rw [if_pos hany, find?_map_set_ne d k k' v hne]
  · rw [if_neg hany, find?_append_single_ne d k k' v hne]

theorem getClass_setClassAttr_ne (env : Env) (c c' : Nat) (k : String) (v : Attr)
    (h : c' ≠ c) :
    (setClassAttr env c k v).getClass c' = env.getClass c' := by
  unfold setClassAttr Env.getClass
  rw [List.getD_eq_getElem?_getD, List.getElem?_set_ne fun hc => h hc.symm,
    ← List.getD_eq_getElem?_getD]

theorem getClass_setClassAttr_self (env : Env) (c : Nat) (k : String) (v : Attr)
    (hc : c < env.classes.length) :
    (setClassAttr env c k v).getClass c =
      { env.getClass c with dict := dictSet (env.getClass c).dict k v } := by
  unfold setClassAttr Env.getClass
  rw [List.getD_eq_getElem?_getD, List.getElem?_set_self',
    List.getElem?_eq_getElem hc]
  rw [List.getD_eq_getElem?_getD, List.getElem?_eq_getElem hc]
  rfl

theorem setClassAttr_out_of_range (env : Env) (c : Nat) (k : String) (v : Attr)
    (hc : ¬c < env.classes.length) :
    setClassAttr env c k v = env := by
  unfold setClassAttr
  rw [List.set_eq_of_length_le (Nat.le_of_not_lt hc)]

/-- C6: the frame effect of `assert_implements` — the heap after the call is
`setClassAttr env c "interface_flag" False` exactly when validation found no
violation and at least one interface was present, and is the unchanged input
heap otherwise; the mutation touches only the validated class's own
dictionary entry for `interface_flag` (other classes — in particular every
ancestor protocol, which keeps its `interface_flag` — and every other
attribute, the name and the bases of the validated class are untouched). -/
theorem C6_frame_effect :
    ∀ (σ : List Nat → List Nat) (env : Env) (c : Nat),
      ((errorsAccum σ env c = .ok [] ∧ ifaceSeq σ env c ≠ []) →
        assert_implements σ env c =
          (.ok true, setClassAttr env c "interface_flag" (.boolVal false)) ∧
        (c < env.classes.length →
          dictLookup ((assert_implements σ env c).2.getClass c).dict "interface_flag" =
            some (.boolVal false))) ∧
      (¬(errorsAccum σ env c = .ok [] ∧ ifaceSeq σ env c ≠ []) →
        (assert_implements σ env c).2 = env) ∧
      (∀ c', c' ≠ c → (assert_implements σ env c).2.getClass c' = env.getClass c') ∧
      (∀ k, k ≠ "interface_flag" →
        dictLookup ((assert_implements σ env c).2.getClass c).dict k =
          dictLookup (env.getClass c).dict k) ∧
      ((assert_implements σ env c).2.getClass c).bases = (env.getClass c).bases ∧
      ((assert_implements σ env c).2.getClass c).cname = (env.getClass c).cname := by
  intro σ env c
  have hA : (errorsAccum σ env c = .ok [] ∧ ifaceSeq σ env c ≠ []) →
      assert_implements σ env c =
        (.ok true, setClassAttr env c "interface_flag" (.boolVal false)) := by
    rintro ⟨h1, h2⟩
    unfold assert_implements
    rw [h1]
    cases hl : ifaceSeq σ env c with
    | nil => exact absurd hl h2
    | cons a t => rfl
  have hB : ¬(errorsAccum σ env c = .ok [] ∧ ifaceSeq σ env c ≠ []) →
      (assert_implements σ env c).2 = env := by
    intro hn
    unfold assert_implements
    cases h1 : errorsAccum σ env c with
    | error e => rfl
    | ok es =>
      cases es with
      | nil =>
        cases hl : ifaceSeq σ env c with
        | nil => rfl
        | cons a t =>
          exact absurd ⟨h1, by rw [hl]; exact fun hc => by cases hc⟩ hn
      | cons v vs => rfl
  by_cases hcond : errorsAccum σ env c = .ok [] ∧ ifaceSeq σ env c ≠ []
  · have heq := hA hcond
    refine ⟨fun _ => ⟨heq, fun hc => ?_⟩, fun hn => absurd hcond hn, fun c' hc' => ?_,
      fun k hk => ?_, ?_, ?_⟩
    · rw [heq]
      show dictLookup ((setClassAttr env c "interface_flag" (.boolVal false)).getClass c).dict
        "interface_flag" = some (.boolVal false)
      rw [getClass_setClassAttr_self env c _ _ hc]
      exact dictLookup_dictSet_self _ _ _
    · rw [heq]
      exact getClass_setClassAttr_ne env c c' _ _ hc'
    · rw [heq]
      by_cases hc : c < env.classes.length
      · show dictLookup ((setClassAttr env c "interface_flag" (.boolVal false)).getClass c).dict
          k = _
        rw [getClass_setClassAttr_self env c _ _ hc]
        exact dictLookup_dictSet_ne _ _ _ _ hk
      · rw [setClassAttr_out_of_range env c _ _ hc]
    · rw [heq]
      by_cases hc : c < env.classes.length
      · rw [getClass_setClassAttr_self env c _ _ hc]
      · rw [setClassAttr_out_of_range env c _ _ hc]
    · rw [heq]
      by_cases hc : c < env.classes.length
      · rw [getClass_setClassAttr_self env c _ _ hc]
      · rw [setClassAttr_out_of_range env c _ _ hc]
  · have heq := hB hcond
    exact ⟨fun hcc => absurd hcc hcond, fun _ => heq, fun c' _ => by rw [heq],
      fun k _ => by rw [heq], by rw [heq], by rw [heq]⟩

/-! ## Claim C7: zero-stub protocols -/

/-- C7 counterexample: in `envC7` the protocol `P` (class 3) declares zero
stubs and class `T` (class 4) inherits it, yet `implements(T, P)` is `False`
(under either admissible set order): the conformance walk covers every
ancestor interface of `P`, and `P`'s own ancestor protocol `Q` declares a
stub `s` that `T` never implements. -/
theorem C7_zero_stub_counterexample :
    istubs (envC7.getClass 3) = [] ∧
    pyIssubclassB envC7 4 3 = true ∧
    isInterfaceB envC7 (.cls 3) = true ∧
    implements pyDedup envC7 (.cls 4) [.cls 3] = .ok false ∧
    implements revDedup envC7 (.cls 4) [.cls 3] = .ok false :=
  ⟨by decide, by decide, by decide, by decide, by decide⟩

theorem implementsPriv_of_no_stubs (env : Env) (obj : PyObj) (iface : Nat)
    (h : istubs (env.getClass iface) = []) : implementsPriv env obj iface = true := by
  rw [implementsPriv_eq_all, h]
  rfl

theorem pyIssubclassB_iff (env : Env) (a b : Nat) :
    pyIssubclassB env a b = true ↔ b ∈ get_ancestors env a := by
  simp [pyIssubclassB]

theorem classImplLoop_ok_true (env : Env) (c : Nat) :
    ∀ l, (∀ i ∈ l, isInterfaceB env (.cls i) = true ∧
        (pyIssubclassB env c i && implementsPriv env (.cls c) i) = true) →
      classImplLoop env c l = .ok true := by
  intro l
  induction l with
  | nil =>
    intro _
    rfl
  | cons i rest ih =>
    intro h
    rcases h i (List.mem_cons_self i rest) with ⟨h1, h2⟩
    rw [classImplLoop, if_neg (by simp [h1]), if_pos h2]
    exact ih fun j hj => h j (List.mem_cons.mpr (Or.inr hj))

theorem instImplLoop_ok_true (env : Env) (c : Nat) :
    ∀ l, (∀ i ∈ l, isInterfaceB env (.cls i) = true ∧
        (pyIsinstanceB env c i && implementsPriv env (.inst c) i) = true) →
      instImplLoop env c l = .ok true := by
  intro l
  induction l with
  | nil =>
    intro _
    rfl
  | cons i rest ih =>
    intro h
    rcases h i (List.mem_cons_self i rest) with ⟨h1, h2⟩
    rw [instImplLoop, if_neg (by simp [h1]), if_pos h2]
    exact ih fun j hj => h j (List.mem_cons.mpr (Or.inr hj))

/-- C7 (amended): `implements(obj, P)` is `True` for every class or instance
`obj` inheriting protocol `P`, provided every interface in `interfaces(P)` —
`P` itself together with its interface ancestors — declares zero stubs.  The
original claim constrained only `P`: the conformance walk also checks `P`'s
ancestor protocols, and one of them declaring an unimplemented stub makes the
call return `False` (the counterexample). -/
theorem C7_zero_stub_amended :
    ∀ (σ : List Nat → List Nat) (env : Env) (p : Nat) (obj : PyObj),
      SetModel σ → EnvWf env →
      pyIssubclassB env obj.classOf p = true →
      (∀ i ∈ interfacesOf σ env (.cls p), istubs (env.getClass i) = []) →
      implements σ env obj [.cls p] = .ok true := by
  intro σ env p obj hσ hwf hsub hzero
  have key : ∀ i ∈ σ (interfacesOf σ env (.cls p)),
      isInterfaceB env (.cls i) = true ∧
      pyIssubclassB env obj.classOf i = true ∧
      istubs (env.getClass i) = [] := by
    intro i hi
    have hi2 : i ∈ interfacesOf σ env (.cls p) := ((hσ _).2 i).mp hi
    have hif : isInterfaceB env (.cls i) = true := (List.mem_filter.mp hi2).2
    have hanc : i ∈ ancestors σ env (.cls (PyObj.cls p).classOf) :=
      (List.mem_filter.mp hi2).1
    have hanc2 : i ∈ get_ancestors env p := ((hσ _).2 i).mp hanc
    have hsub2 : p ∈ get_ancestors env obj.classOf := (pyIssubclassB_iff env _ p).mp hsub
    have : i ∈ get_ancestors env obj.classOf :=
      get_ancestors_trans env hwf obj.classOf p i hsub2 hanc2
    exact ⟨hif, (pyIssubclassB_iff env _ i).mpr this, hzero i hi2⟩
  cases obj with
  | cls c =>
    show classImplements σ env c [.cls p] = .ok true
    apply classImplLoop_ok_true
    intro i hi
    rcases key i hi with ⟨h1, h2, h3⟩
    have h2' : pyIssubclassB env c i = true := h2
    exact ⟨h1, by rw [h2', implementsPriv_of_no_stubs env (.cls c) i h3]; rfl⟩
  | inst c =>
    show instImplements σ env c [.cls p] = .ok true
    apply instImplLoop_ok_true
    intro i hi
    rcases key i hi with ⟨h1, h2, h3⟩
    have h2' : pyIssubclassB env c i = true := h2
    exact ⟨h1, by
      rw [pyIsinstanceB, h2', implementsPriv_of_no_stubs env (.inst c) i h3]; rfl⟩

/-- C7 witness: in `envC7b` the protocol `P` and all its interface ancestors
declare zero stubs, and the inheriting class `T` implements it. -/
theorem C7_witness :
    implements pyDedup envC7b (.cls 3) [.cls 2] = .ok true :=
  C7_zero_stub_amended pyDedup envC7b 2 (.cls 3) setModel_pyDedup
    (envWf_of_envWfB envC7b (by decide)) (by decide) (by decide)

/-! ## Claim C8: misuse raising in `extends` -/

/-- C8 counterexample: an instance of the unvalidated protocol `P` inherits
`interface_flag = True`, so `is_interface` accepts it; with the instance as
first argument and the genuine interface class `P` second, both guards pass
and `extends` still raises `TypeError` — from `issubclass(instance, P)` —
refuting "when all arguments are interfaces it never raises". -/
theorem C8_extends_counterexample :
    isInterfaceB envC8 (.inst 2) = true ∧
    isInterfaceB envC8 (.cls 2) = true ∧
    pyExtends envC8 (.inst 2) [.cls 2] = .error .typeErrorIssubclassArg :=
  ⟨by decide, by decide, by decide⟩

theorem issubclassComp_all_cls (env : Env) (cf : Nat) :
    ∀ rest : List PyObj, (∀ r ∈ rest, ∃ cr : Nat, r = .cls cr) →
      issubclassComp env (.cls cf) rest =
        .ok (rest.map fun r => pyIssubclassB env cf r.classOf) := by
  intro rest
  induction rest with
  | nil =>
    intro _
    rfl
  | cons r rs ih =>
    intro h
    rcases h r (List.mem_cons_self r rs) with ⟨cr, rfl⟩
    simp only [issubclassComp, pyIssubclassE, List.map_cons]
    rw [ih fun x hx => h x (List.mem_cons.mpr (Or.inr hx))]
    rfl

theorem all_id_map (f : PyObj → Bool) : ∀ l : List PyObj, (l.map f).all id = l.all f := by
  intro l
  induction l with
  | nil => rfl
  | cons a t ih => simp [List.map_cons, List.all_cons, ih]

/-- C8 (amended): `extends` raises `TypeError` whenever `is_interface`
rejects the first argument or any of the remaining arguments; when every
argument is an interface CLASS (a class inheriting `Interface`) it never
raises, returning `True` exactly when the first class inherits from all the
others.  The counterexample forces narrowing "interface" to "interface
class" in the never-raises half: a non-class argument whose `interface_flag`
lookup is truthy passes both `is_interface` guards, and `issubclass` itself
then raises `TypeError`. -/
theorem C8_extends_amended :
    ∀ (env : Env) (first : PyObj) (rest : List PyObj),
      (isInterfaceB env first = false →
        pyExtends env first rest = .error .typeErrorNotInterface) ∧
      ((∃ r ∈ rest, isInterfaceB env r = false) →
        pyExtends env first rest = .error .typeErrorNotInterface) ∧
      (∀ cf : Nat, first = .cls cf → pyIssubclassB env cf 1 = true →
        (∀ r ∈ rest, ∃ cr : Nat, r = .cls cr ∧ pyIssubclassB env cr 1 = true) →
        pyExtends env first rest =
          .ok (rest.all fun r => pyIssubclassB env cf r.classOf)) := by
  intro env first rest
  refine ⟨fun h => ?_, fun h => ?_, fun cf hcf hcf1 hrest => ?_⟩
  · rw [pyExtends, if_pos (by simp [h])]
  · by_cases h0 : isInterfaceB env first = true
    · rcases h with ⟨r, hr, hrf⟩
      have hany : (rest.any fun i => !isInterfaceB env i) = true :=
        List.any_eq_true.mpr ⟨r, hr, by simp [hrf]⟩
      rw [pyExtends, if_neg (by simp [h0]), if_pos hany]
    · rw [pyExtends, if_pos (by simp [Bool.eq_false_iff.mpr h0])]
  · subst hcf
    have hfirst : isInterfaceB env (.cls cf) = true := hcf1
    have hany : (rest.any fun i => !isInterfaceB env i) = false := by
      apply List.any_eq_false.mpr
      intro r hr
      rcases hrest r hr with ⟨cr, rfl, hcr⟩
      have hcr' : isInterfaceB env (.cls cr) = true := hcr
      intro hx
      simp [hcr'] at hx
    rw [pyExtends, if_neg (by simp [hfirst]), if_neg (by simp [hany]),
      issubclassComp_all_cls env cf rest fun r hr => ⟨(hrest r hr).choose,
        (hrest r hr).choose_spec.1⟩]
    show Except.ok ((rest.map fun r => pyIssubclassB env cf r.classOf).all id) = _
    rw [all_id_map]

/-! ## Claim C9: inherited `Interface.__init__` forbids instantiation -/

theorem lookupAlong_skip (env : Env) (name : String) :
    ∀ l1 : List Nat, (∀ k ∈ l1, dictLookup (env.getClass k).dict name = none) →
      ∀ l2, lookupAlong env name (l1 ++ l2) = lookupAlong env name l2 := by
  intro l1
  induction l1 with
  | nil =>
    intro _ l2
    rfl
  | cons k ks ih =>
    intro h l2
    rw [List.cons_append]
    simp only [lookupAlong, h k (List.mem_cons_self k ks)]
    exact ih (fun j hj => h j (List.mem_cons.mpr (Or.inr hj))) l2

/-- C9: whenever class `c`'s MRO reaches `Interface` (class 1, with the
dictionary the source gives it) before any class supplying its own
`__init__` — as for `Interface` itself, every protocol, and every implementor
that does not override `__init__` — attribute resolution yields
`Interface.__init__`, and instantiating `c` raises `InterfaceError` whatever
constructor arguments are passed. -/
theorem C9_interface_init_raises :
    ∀ (env : Env) (c : Nat) (l1 l2 : List Nat) (args : List Attr),
      mro env c = some (l1 ++ 1 :: l2) →
      env.getClass 1 = interfaceClass →
      (∀ k ∈ l1, dictLookup (env.getClass k).dict "__init__" = none) →
      instantiate env c args = .error .interfaceErrorNotInstantiable := by
  intro env c l1 l2 args hm h1 hnone
  have hd : dictLookup interfaceClass.dict "__init__" = some (.func interfaceInitF) := by
    decide
  have hl : lookupClassAttr env c "__init__" = some (.func interfaceInitF) := by
    rw [lookupClassAttr, hm]
    show lookupAlong env "__init__" (l1 ++ 1 :: l2) = _
    rw [lookupAlong_skip env "__init__" l1 hnone (1 :: l2)]
    simp only [lookupAlong, h1, hd]
  rw [instantiate, hl]
  rfl

/-- C9 witness: the protocol `P` of `envC8` defines no `__init__` of its own;
instantiating it raises, regardless of the argument passed. -/
theorem C9_witness :
    instantiate envC8 2 [.other 7] = .error .interfaceErrorNotInstantiable :=
  C9_interface_init_raises envC8 2 [2] [0] [.other 7] (by decide) (by decide) (by decide)

end RswInterface
